import Mathlib

/-!
Verification of the radar echo sequence pipeline in
`seq_wise/utils/dataset.py` (frame locator / decoder, parameter
validation, MTD velocity axis, map building, sequence assembly).

Shallow embedding conventions:
* bytes are `ℕ` below 256, byte streams are `List ℕ`;
* little-endian 32-bit words are recombined as exact natural numbers;
* IEEE float32 IQ samples are modelled by their 32-bit payloads (the
  decoder only moves them around, it never computes with them);
* real / float64 arithmetic (scales, velocities, magnitudes,
  percentiles) is modelled by exact rational arithmetic `ℚ`;
* a Python exception that a surrounding handler catches and turns into
  "skip this frame" is modelled as `none`.
-/

/-! ## Frame format constants (`read_raw_data`, lines 80-81) -/

def FRAME_HEAD : ℕ := 0xFA55FA55

def FRAME_END : ℕ := 0x55FA55FA

/-! ## Byte-stream primitives -/

/-- Byte of a stream at position `p` (out-of-range reads only happen
behind explicit length checks, mirroring Python's short-read checks). -/
def byteAt (B : List ℕ) (p : ℕ) : ℕ := B.getD p 0

/-- `struct.unpack('<I', ...)`: little-endian unsigned 32-bit word at `p`. -/
def u32Val (B : List ℕ) (p : ℕ) : ℕ :=
  byteAt B p + 256 * byteAt B (p + 1) + 65536 * byteAt B (p + 2) +
    16777216 * byteAt B (p + 3)

/-- A 4-byte read at `p`: `none` models `len(bytes) < 4` (short read). -/
def u32At (B : List ℕ) (p : ℕ) : Option ℕ :=
  if p + 4 ≤ B.length then some (u32Val B p) else none

/-- Little-endian serialization of a 32-bit word (test encoder side). -/
def encW (w : ℕ) : List ℕ :=
  [w % 256, w / 256 % 256, w / 65536 % 256, w / 16777216 % 256]

/-- `np.frombuffer(...)[i]` for a block of `k` little-endian words at
byte offset `off` (used for the track/parameter block). -/
def readWordsAt (B : List ℕ) (off k : ℕ) : List ℕ :=
  (List.range k).map (fun i => u32Val B (off + 4 * i))

/-! ## Decoded data model (`Parameters` dataclass, lines 62-72) -/

structure Params where
  e_scan_az : ℚ
  track_no_info : List ℕ
  freq : ℚ
  cpi_count : ℕ
  prt_num : ℕ
  prt : ℚ
  data_length : ℕ
deriving DecidableEq

/-! ## FrameLocator (`read_raw_data`, lines 80-163)

`scanHeader` is the byte-granular header search (lines 92-105): read a
4-byte candidate, on mismatch seek back 3 bytes (net +1) and retry while
`tell < file_size`.  `resyncFrame` is the header/trailer consistency
loop (lines 131-160).  `findFrame` glues them and returns
`(header_offset, frame_byte_length, data_offset)` where `data_offset`
is the cursor position after the `fid.seek(-frame_data_length + 4, 1)`
of line 163. -/

def scanHeader (B : List ℕ) (p : ℕ) : Option ℕ :=
  if p + 4 ≤ B.length then
    if u32Val B p = FRAME_HEAD then some p
    else if p + 4 < B.length then scanHeader B (p + 1) else none
  else none
termination_by B.length - p
decreasing_by omega

/-- Resynchronization loop (lines 131-160).  State: `c` is the cursor
(just after the last trailer candidate), `f` the current frame length.
Each iteration rereads a header at `c - f + 1`, a length word, and a
trailer candidate.  The fuel argument is an upper bound on the number
of iterations: the candidate header position strictly increases over
any revisit of the same position, and every read must stay inside the
stream, so at most `B.length + 2` iterations can happen; none of the
theorems below ever enters this loop anyway. -/
def resyncFrame (B : List ℕ) (c f : ℕ) : ℕ → Option (ℕ × ℕ × ℕ)
  | 0 => none
  | fuel + 1 =>
    -- `fid.seek(-frame_data_length + 1, 1)`; a negative target would be
    -- an uncaught OSError, but `c + 1 ≥ f` holds on every entry.
    if c + 1 < f then none
    else
      let h := c + 1 - f
      match u32At B h with
      | none => none
      | some hw =>
        match u32At B (h + 4) with
        | none => none
        | some lw =>
          let f2 := lw * 4
          if f2 = 0 ∨ 1000000 < f2 then none
          else
            -- `fid.seek(frame_data_length - 8, 1)` from `h + 8`, then read:
            -- the trailer candidate of this loop sits at `h + f2`.
            match u32At B (h + f2) with
            | none => none
            | some ew =>
              if hw = FRAME_HEAD ∧ ew = FRAME_END then some (h, f2, h + 8)
              else if B.length ≤ h + f2 + 4 then none
              else resyncFrame B (h + f2 + 4) f2 fuel

def findFrame (B : List ℕ) : Option (ℕ × ℕ × ℕ) :=
  match scanHeader B 0 with
  | none => none
  | some p =>
    match u32At B (p + 4) with
    | none => none
    | some lw =>
      let fdl := lw * 4
      if fdl = 0 ∨ 1000000 < fdl then none
      else
        -- `fid.seek(current_pos + frame_data_length - 12, 0)` with
        -- `current_pos = p + 8`: trailer candidate at `p + fdl - 4`.
        match u32At B (p + 8 + fdl - 12) with
        | none => none
        | some ew =>
          if ew = FRAME_END then some (p, fdl, p + 4)
          else resyncFrame B (p + fdl) fdl (B.length + 2)

/-! ## FrameDecoder (`read_raw_data`, lines 165-236)

`d` is the data offset delivered by `findFrame` (the position of
`data_temp1`).  The IQ samples are kept as raw little-endian 32-bit
float payloads, de-interleaved into (real, imag) pairs and reshaped
row-major into 31 range rows of `prt_num` columns. -/

def decodeFrame (B : List ℕ) (d : ℕ) : Option (Params × List (List (ℕ × ℕ))) :=
  if B.length < d + 12 then none
  else
    -- data_temp1[0] (the reread length word) is parsed but unused.
    let az := u32Val B (d + 4)
    let cnt := u32Val B (d + 8)
    if 1000 < cnt then none
    else
      if B.length < d + 12 + (cnt * 4 + 5) * 4 then none
      else
        let track := readWordsAt B (d + 12) (cnt * 4)
        let base := d + 12 + 16 * cnt
        let params : Params :=
          { e_scan_az := (az : ℚ) * (1 / 100)
            track_no_info := track
            freq := (u32Val B base : ℚ) * 1000000
            cpi_count := u32Val B (base + 4)
            prt_num := u32Val B (base + 8)
            prt := (u32Val B (base + 12) : ℚ) * (125 / 10000000000)
            data_length := u32Val B (base + 16) }
        if params.prt_num = 0 ∨ 10000 < params.prt_num then none
        else if params.prt ≤ 0 ∨ 1 < params.prt then none
        else if params.freq ≤ 0 ∨ (1000000000000 : ℚ) < params.freq then none
        else
          let n := params.prt_num
          let q := base + 20
          if B.length < q + n * 31 * 2 * 4 then none
          else
            let iq := (List.range 31).map (fun r =>
              (List.range n).map (fun c =>
                (u32Val B (q + 8 * (r * n + c)), u32Val B (q + 8 * (r * n + c) + 4))))
            some (params, iq)

/-- `read_raw_data`: locate a frame, then decode it. -/
def readRawData (B : List ℕ) : Option (Params × List (List (ℕ × ℕ))) :=
  match findFrame B with
  | none => none
  | some (_, _, d) => decodeFrame B d

/-! ## Symmetric test encoder for the round-trip law.

Modelled from the spec: the repository ships no encoder (the spec's
round-trip law postulates "a symmetric test encoder used only in
tests"), so the encoder below is written from the documented binary
frame layout, fields little-endian in decoding order, IQ interleaved
real/imag, with the word read by the decoder as `data_temp1[0]`
coinciding with the declared-length word. -/

structure RawParams where
  e_scan_az_raw : ℕ
  track_no_info : List ℕ
  freq_raw : ℕ
  cpi_count : ℕ
  prt_num : ℕ
  prt_raw : ℕ
  data_length : ℕ

/-- Modelled from the spec: interleaved (real, imag) words of one IQ
sample. -/
def pairWords (z : ℕ × ℕ) : List ℕ := [z.1, z.2]

/-- Modelled from the spec: row-major interleaved word block of the IQ
matrix. -/
def iqWords (iq : List (List (ℕ × ℕ))) : List ℕ :=
  (iq.map (fun row => (row.map pairWords).flatten)).flatten

/-- Modelled from the spec: word sequence of one encoded frame. -/
def frameWords (rp : RawParams) (iq : List (List (ℕ × ℕ))) : List ℕ :=
  [FRAME_HEAD, 10 + rp.track_no_info.length + 62 * rp.prt_num,
    rp.e_scan_az_raw, rp.track_no_info.length / 4] ++
  (rp.track_no_info ++
  ([rp.freq_raw, rp.cpi_count, rp.prt_num, rp.prt_raw, rp.data_length] ++
  (iqWords iq ++
  [FRAME_END])))

/-- Modelled from the spec: byte stream of one encoded frame. -/
def encodeFrame (rp : RawParams) (iq : List (List (ℕ × ℕ))) : List ℕ :=
  ((frameWords rp iq).map encW).flatten

/-- The `Parameters` record the decoder reconstructs from raw fields
(scalings of lines 173, 199, 202). -/
def paramsOfRaw (rp : RawParams) : Params :=
  { e_scan_az := (rp.e_scan_az_raw : ℚ) * (1 / 100)
    track_no_info := rp.track_no_info
    freq := (rp.freq_raw : ℚ) * 1000000
    cpi_count := rp.cpi_count
    prt_num := rp.prt_num
    prt := (rp.prt_raw : ℚ) * (125 / 10000000000)
    data_length := rp.data_length }

/-! ## ParameterValidator (lines 207-216 and 364-374) -/

/-- Scalar validation in `read_raw_data` (lines 207-216); `prt_num` is
decoded from an unsigned word, so `prt_num <= 0` means `prt_num = 0`. -/
def validateParams (p : Params) : Bool :=
  if p.prt_num = 0 ∨ 10000 < p.prt_num then false
  else if p.prt ≤ 0 ∨ 1 < p.prt then false
  else if p.freq ≤ 0 ∨ (1000000000000 : ℚ) < p.freq then false
  else true

/-- Frame retention checks at the top of `_process_batch`
(lines 364-374): drop frames with no / short track info, re-check the
scalars. -/
def frameRetained (p : Params) : Bool :=
  if p.track_no_info.length = 0 then false
  else if p.track_no_info.length < 4 then false
  else if p.prt ≤ 0 ∨ p.prt_num = 0 ∨ p.freq ≤ 0 then false
  else true

/-! ## MTDProcessor velocity axis (lines 393-420) -/

/-- `delta_v = C / (2 * prt_num * prt * freq)` (line 395, `C = 3e8`). -/
def delta_v (prt_num : ℕ) (prt freq : ℚ) : ℚ :=
  300000000 / (2 * prt_num * prt * freq)

/-- Velocity axis (lines 403-414): `half = prt_num // 2`,
`v_indices = np.arange(-half, half)` (length `2 * half`),
`v_axis = v_indices * delta_v`. -/
def vAxis (prt_num : ℕ) (dv : ℚ) : List ℚ :=
  (List.range (2 * (prt_num / 2))).map
    (fun (i : ℕ) => ((i : ℚ) - (prt_num / 2 : ℕ)) * dv)

/-! ## TargetLocalizer window (lines 427-455) -/

/-- Doppler hint re-centering (lines 430-433). -/
def recenterVr (raw half : ℤ) : ℤ :=
  if half < raw then raw - half else raw + half

/-- `np.clip(x, lo, hi)` (line 439). -/
def clipVr (x lo hi : ℤ) : ℤ := max lo (min x hi)

/-- `range_start_local = max(0, 15 - 5)` (line 446). -/
def rangeStartLocal : ℤ := max 0 (15 - 5)

/-- `range_end_local = min(31, 15 + 5 + 1)` (line 447, 31 range rows). -/
def rangeEndLocal : ℤ := min 31 (15 + 5 + 1)

/-- `doppler_start = max(0, hint - 5)` (line 448). -/
def dopplerStartOf (h : ℤ) : ℤ := max 0 (h - 5)

/-- `doppler_end = min(prt_num, hint + 5 + 1)` (line 449). -/
def dopplerEndOf (n h : ℤ) : ℤ := min n (h + 5 + 1)

/-- `abs_target.size` of the local search window (line 455). -/
def windowSize (n h : ℤ) : ℤ :=
  (rangeEndLocal - rangeStartLocal) * (dopplerEndOf n h - dopplerStartOf h)

/-! ## MapBuilder (lines 482-490) -/

/-- Columns kept by `velocity_mask = |velocity_axis| < 56` (line 484). -/
def velocityMask (axis : List ℚ) : List ℕ :=
  (List.range axis.length).filter (fun i => |axis.getD i 0| < 56)

/-- `rd_matrix = rd_matrix[:, velocity_mask]` (line 485). -/
def maskColumns (axis : List ℚ) (m : List (List ℚ)) : List (List ℚ) :=
  m.map (fun row => (velocityMask axis).map (fun j => row.getD j 0))

/-- `rd_matrix = np.abs(rd_matrix)` (line 486), on the rational
stand-ins for the spectrum magnitudes. -/
def absMatrix (m : List (List ℚ)) : List (List ℚ) :=
  m.map (fun row => row.map (fun x => |x|))

/-- `np.where(velocity_axis == 0)[0][0]` (line 487): index of the first
exactly-zero entry; `none` models the IndexError raised when no zero
entry exists. -/
def findZeroIdx : List ℚ → Option ℕ
  | [] => none
  | x :: xs => if x = 0 then some 0 else (findZeroIdx xs).map (· + 1)

/-- Effective start of the Python slice `velocity_index - 4 :` on a row
of `ncols` columns: a negative start index wraps once by the row length
and is then clamped to 0. -/
def sliceStart (vi ncols : ℕ) : ℤ :=
  if (vi : ℤ) - 4 < 0 then max 0 ((ncols : ℤ) + ((vi : ℤ) - 4))
  else (vi : ℤ) - 4

/-- `rd_matrix[:, velocity_index - 4 : velocity_index + 3] = 0`
(line 488), with Python slice semantics. -/
def bandZero (vi : ℕ) (m : List (List ℚ)) : List (List ℚ) :=
  m.map (fun row =>
    (List.range row.length).map (fun (j : ℕ) =>
      if sliceStart vi row.length ≤ (j : ℤ) ∧ (j : ℤ) < (vi : ℤ) + 3 then 0
      else row.getD j 0))

/-- All magnitude cells of a map, in row-major order. -/
def flattenM (m : List (List ℚ)) : List ℚ := m.flatten

/-- Insertion into a sorted list (ascending), for `np.sort`. -/
def insertSorted (x : ℚ) : List ℚ → List ℚ
  | [] => [x]
  | y :: ys => if x ≤ y then x :: y :: ys else y :: insertSorted x ys

/-- Ascending sort of the flattened magnitudes. -/
def sortQ (l : List ℚ) : List ℚ := l.foldr insertSorted []

/-- `np.percentile(rd_matrix, 5)` with numpy's default linear
interpolation: virtual position `(5/100) * (n - 1)` into the sorted
data, interpolated between the two neighbouring order statistics.
(`np.percentile` raises on an empty array; the 0 in that branch is
never relied upon.) -/
def percentile5 (m : List (List ℚ)) : ℚ :=
  let s := sortQ (flattenM m)
  let nn := s.length
  if nn = 0 then 0
  else
    let lo : ℕ := 5 * (nn - 1) / 100
    let frac : ℚ := ((5 * (nn - 1)) % 100 : ℕ) / 100
    if lo + 1 < nn then s.getD lo 0 + frac * (s.getD (lo + 1) 0 - s.getD lo 0)
    else s.getD lo 0

/-- `rd_matrix[rd_matrix < np.percentile(rd_matrix, 5)] = 0` (line 489). -/
def percentileStep (m : List (List ℚ)) : List (List ℚ) :=
  let t := percentile5 m
  m.map (fun row => row.map (fun x => if x < t then 0 else x))

/-- Map building (lines 482-490) for one frame: Doppler band mask,
magnitude, zero-Doppler notch, adaptive noise floor.  `none` models the
IndexError of line 487, which the frame-level handler of lines 495-497
catches. -/
def buildRdMap (axis : List ℚ) (mtd : List (List ℚ)) : Option (List (List ℚ)) :=
  let rd := absMatrix (maskColumns axis mtd)
  match findZeroIdx axis with
  | none => none
  | some vi => some (percentileStep (bandZero vi rd))

/-- The per-frame accumulation loop of `_process_batch`: a frame whose
processing raises is silently skipped (`except Exception: continue`,
lines 495-497) and the loop moves on. -/
def processFrames (inputs : List (List ℚ × List (List ℚ))) : List (List (List ℚ)) :=
  inputs.foldl (fun acc f =>
    match buildRdMap f.1 f.2 with
    | none => acc
    | some m => acc ++ [m]) []

/-! ## SequenceAssembler (`RDSeq.__getitem__`, lines 339-346) -/

/-- Sequence normalization: `image_mask = np.ones(seq_len)`; if fewer
maps than `seq_len`, right-pad with zero maps and then run
`image_mask[images.shape[0]:] = 0` — with `images` ALREADY reassigned
to the padded array, exactly as in the source; if more, subsample at
`np.linspace(0, N - 1, seq_len, dtype=int)` (floor of the exact
rational grid). -/
def assembleSeq {α : Type} (seq_len : ℕ) (zero : α) (images : List α) :
    List α × List ℕ :=
  if images.length < seq_len then
    let padded := images ++ List.replicate (seq_len - images.length) zero
    let mask := (List.range seq_len).map (fun i => if padded.length ≤ i then 0 else 1)
    (padded, mask)
  else if seq_len < images.length then
    let indices := (List.range seq_len).map
      (fun i => i * (images.length - 1) / (seq_len - 1))
    (indices.map (fun j => images.getD j zero), List.replicate seq_len 1)
  else (images, List.replicate seq_len 1)

/-! ## Helper lemmas -/

theorem getD_map_range {α : Type} (f : ℕ → α) (d : α) (m i : ℕ) (h : i < m) :
    ((List.range m).map f).getD i d = f i := by
  rw [List.getD_eq_getElem?_getD, List.getElem?_map, List.getElem?_range h]
  rfl

theorem getD_map_of_lt {α β : Type} (f : α → β) (l : List α) (r : ℕ)
    (d : β) (d' : α) (h : r < l.length) :
    (l.map f).getD r d = f (l.getD r d') := by
  rw [List.getD_eq_getElem?_getD, List.getElem?_map, List.getElem?_eq_getElem h,
    List.getD_eq_getElem?_getD, List.getElem?_eq_getElem h]
  rfl

theorem findZeroIdx_eq_some (l : List ℚ) (i : ℕ) (hi : i < l.length)
    (hbefore : ∀ j, j < i → l.getD j 0 ≠ 0) (hzero : l.getD i 0 = 0) :
    findZeroIdx l = some i := by
  induction l generalizing i with
  | nil => simp at hi
  | cons x xs ih =>
    cases i with
    | zero =>
      simp only [List.getD_cons_zero] at hzero
      simp [findZeroIdx, hzero]
    | succ i' =>
      have hx : x ≠ 0 := by
        have := hbefore 0 (Nat.succ_pos i')
        simpa using this
      have hrec : findZeroIdx xs = some i' := by
        refine ih i' (by simpa using hi) ?_ (by simpa using hzero)
        intro j hj
        have := hbefore (j + 1) (by omega)
        simpa using this
      simp [findZeroIdx, hx, hrec]

theorem findZeroIdx_eq_none (l : List ℚ) (h : ∀ x ∈ l, x ≠ 0) :
    findZeroIdx l = none := by
  induction l with
  | nil => rfl
  | cons x xs ih =>
    have hx : x ≠ 0 := h x (by simp)
    simp [findZeroIdx, hx, ih (fun y hy => h y (by simp [hy]))]

/-! ## Claim C1 -/

set_option maxRecDepth 10000 in
/-- Claim C1 (code slip): for `L = 180` and `N = 100` input maps, the
sequence is right-padded with zero maps to length 180, but the returned
mask is ALL ones — `image_mask[images.shape[0]:] = 0` runs after
`images` has been reassigned to the padded array of length 180, so the
assignment is an empty-slice no-op and no padded position is ever
marked invalid, contradicting the claimed 100 true / 80 false mask. -/
theorem c1_pad_mask_code_bug :
    (assembleSeq 180 (0 : ℕ) (List.replicate 100 7)).1 =
      List.replicate 100 7 ++ List.replicate 80 0 ∧
    (assembleSeq 180 (0 : ℕ) (List.replicate 100 7)).2 = List.replicate 180 1 ∧
    (assembleSeq 180 (0 : ℕ) (List.replicate 100 7)).2 ≠
      List.replicate 100 1 ++ List.replicate 80 0 := by
  decide

/-! ## Claim C2 -/

/-- Claim C2 (amended): for frames passing parameter validation with
EVEN `prt_num` (`2 ≤ prt_num`), the velocity axis equals
`(i - prt_num//2) * delta_v` for `i` in `[0, prt_num)`, has length
exactly `prt_num`, and is antisymmetric about its center index
`prt_num//2`; for odd `prt_num` the axis `np.arange(-half, half)` has
only `prt_num - 1` entries, so the original claim fails. -/
theorem c2_velocity_axis_even (n : ℕ) (dv : ℚ) (he : n % 2 = 0) (h2 : 2 ≤ n) :
    (vAxis n dv).length = n ∧
    (∀ i, i < n → (vAxis n dv).getD i 0 = ((i : ℚ) - (n / 2 : ℕ)) * dv) ∧
    (∀ k, 1 ≤ k → n / 2 + k < n →
      (vAxis n dv).getD (n / 2 + k) 0 = -((vAxis n dv).getD (n / 2 - k) 0)) := by
  have hlen : 2 * (n / 2) = n := by omega
  have hget : ∀ i, i < n → (vAxis n dv).getD i 0 = ((i : ℚ) - (n / 2 : ℕ)) * dv := by
    intro i hi
    unfold vAxis
    exact getD_map_range (fun i => ((i : ℚ) - (n / 2 : ℕ)) * dv) 0 (2 * (n / 2)) i (by omega)
  refine ⟨by unfold vAxis; rw [List.length_map, List.length_range, hlen], hget, ?_⟩
  intro k hk1 hk2
  have hklt : k ≤ n / 2 := by omega
  rw [hget (n / 2 + k) (by omega), hget (n / 2 - k) (by omega)]
  have hcast : ((n / 2 - k : ℕ) : ℚ) = ((n / 2 : ℕ) : ℚ) - (k : ℚ) := by
    push_cast [Nat.cast_sub hklt]
    ring
  push_cast [hcast]
  ring

/-- Claim C2 counterexample: `prt_num = 3` passes every parameter
check (and yields a perfectly finite `delta_v = 50`), yet the built
velocity axis has length 2, not 3. -/
theorem c2_counterexample :
    validateParams ⟨0, [1, 2, 3, 4], 1000000, 0, 3, 1, 31⟩ = true ∧
    frameRetained ⟨0, [1, 2, 3, 4], 1000000, 0, 3, 1, 31⟩ = true ∧
    delta_v 3 1 1000000 = 50 ∧
    (vAxis 3 (delta_v 3 1 1000000)).length ≠ 3 := by
  refine ⟨by norm_num [validateParams], by norm_num [frameRetained], ?_, ?_⟩
  · norm_num [delta_v]
  · norm_num [vAxis]

/-- Witness for C2 at `prt_num = 12`. -/
theorem c2_witness :
    12 % 2 = 0 ∧ (vAxis 12 (50 : ℚ)).length = 12 :=
  ⟨by decide, (c2_velocity_axis_even 12 50 (by decide) (by decide)).1⟩

/-! ## Claim C5 -/

theorem validateParams_iff (p : Params) :
    validateParams p = true ↔
      ¬(p.prt_num = 0 ∨ 10000 < p.prt_num) ∧ ¬(p.prt ≤ 0 ∨ 1 < p.prt) ∧
        ¬(p.freq ≤ 0 ∨ (1000000000000 : ℚ) < p.freq) := by
  unfold validateParams
  split_ifs with h1 h2 h3 <;> simp_all

theorem frameRetained_iff (p : Params) :
    frameRetained p = true ↔
      ¬(p.track_no_info.length = 0) ∧ ¬(p.track_no_info.length < 4) ∧
        ¬(p.prt ≤ 0 ∨ p.prt_num = 0 ∨ p.freq ≤ 0) := by
  unfold frameRetained
  split_ifs with h1 h2 h3 <;> simp_all

/-- Claim C5: the combined parameter validation (scalar checks in
`read_raw_data` plus the track-info checks in `_process_batch`) accepts
a decoded record exactly when `prt_num` lies in `[1, 10000]`, `prt` in
`(0, 1]`, `freq` in `(0, 1e12]`, and `track_no_info` has at least 4
entries — so `prt_num = 0`, `prt_num = 10001`, `prt ≤ 0`, `prt > 1`,
`freq ≤ 0`, `freq > 1e12` and short track info are rejected, while the
boundary values `prt_num = 1`, `prt_num = 10000`, `prt = 1` pass. -/
theorem c5_validator_iff (p : Params) :
    (validateParams p && frameRetained p) = true ↔
      1 ≤ p.prt_num ∧ p.prt_num ≤ 10000 ∧ 0 < p.prt ∧ p.prt ≤ 1 ∧
        0 < p.freq ∧ p.freq ≤ 1000000000000 ∧ 4 ≤ p.track_no_info.length := by
  rw [Bool.and_eq_true, validateParams_iff, frameRetained_iff]
  push_neg
  constructor
  · rintro ⟨⟨⟨a1, a2⟩, ⟨a3, a4⟩, ⟨a5, a6⟩⟩, b1, b2, c1, c2, c3⟩
    exact ⟨by omega, a2, a3, a4, a5, a6, by omega⟩
  · rintro ⟨h1, h2, h3, h4, h5, h6, h7⟩
    exact ⟨⟨⟨by omega, h2⟩, ⟨h3, h4⟩, ⟨h5, h6⟩⟩, by omega, by omega, h3, by omega, h5⟩

/-! ## Claim C8 -/

/-- Claim C8: after the adaptive noise-floor step
`rd_matrix[rd_matrix < np.percentile(rd_matrix, 5)] = 0`, every cell of
the resulting map whose value is strictly below the threshold (the 5th
percentile of the magnitude values present when the threshold was
computed) equals zero. -/
theorem c8_percentile_floor (m : List (List ℚ)) (x : ℚ)
    (hx : x ∈ flattenM (percentileStep m)) (hlt : x < percentile5 m) :
    x = 0 := by
  unfold flattenM percentileStep at hx
  simp only [List.mem_flatten, List.mem_map] at hx
  obtain ⟨row', ⟨row, hrow, hmap⟩, hxin⟩ := hx
  subst hmap
  simp only [List.mem_map] at hxin
  obtain ⟨y, hy, hfy⟩ := hxin
  by_cases hc : y < percentile5 m
  · rw [if_pos hc] at hfy
    exact hfy.symm
  · rw [if_neg hc] at hfy
    subst hfy
    exact absurd hlt hc

/-- Witness for C8 on the concrete map `[[0, 10]]`, whose 5th
percentile is `1/2`. -/
theorem c8_witness :
    (0 : ℚ) ∈ flattenM (percentileStep [[0, 10]]) ∧
      (0 : ℚ) < percentile5 [[0, 10]] ∧ (0 : ℚ) = 0 := by
  have hmem : (0 : ℚ) ∈ flattenM (percentileStep [[0, 10]]) := by
    norm_num [flattenM, percentileStep, percentile5, sortQ, insertSorted, flattenM]
  have hlt : (0 : ℚ) < percentile5 [[0, 10]] := by
    norm_num [percentile5, sortQ, insertSorted, flattenM]
  exact ⟨hmem, hlt, c8_percentile_floor [[0, 10]] 0 hmem hlt⟩

/-! ## Claim C9 -/

/-- Claim C9: when a batch yields `N > L` maps, the assembler keeps
exactly `L` maps, at the indices `i * (N-1) / (L-1)` of the
floor-rounded uniform grid `np.linspace(0, N-1, L)`; this grid starts
at index 0, ends at index `N-1`, is nondecreasing, and stays within
`[0, N-1]`. -/
theorem c9_uniform_stride {α : Type} (z : α) (imgs : List α) (L : ℕ)
    (hL : 2 ≤ L) (hN : L < imgs.length) :
    (assembleSeq L z imgs).1.length = L ∧
    (assembleSeq L z imgs).1 =
      (List.range L).map (fun i => imgs.getD (i * (imgs.length - 1) / (L - 1)) z) ∧
    0 * (imgs.length - 1) / (L - 1) = 0 ∧
    (L - 1) * (imgs.length - 1) / (L - 1) = imgs.length - 1 ∧
    (∀ i j, i ≤ j →
      i * (imgs.length - 1) / (L - 1) ≤ j * (imgs.length - 1) / (L - 1)) ∧
    (∀ i, i < L → i * (imgs.length - 1) / (L - 1) ≤ imgs.length - 1) := by
  have hnotlt : ¬(imgs.length < L) := by omega
  have hassm : (assembleSeq L z imgs).1 =
      (List.range L).map (fun i => imgs.getD (i * (imgs.length - 1) / (L - 1)) z) := by
    unfold assembleSeq
    rw [if_neg hnotlt, if_pos hN]
    simp [List.map_map]
  have hcancel : (L - 1) * (imgs.length - 1) / (L - 1) = imgs.length - 1 :=
    Nat.mul_div_cancel_left _ (by omega)
  refine ⟨by rw [hassm]; simp, hassm, by simp, hcancel, ?_, ?_⟩
  · intro i j hij
    exact Nat.div_le_div_right (Nat.mul_le_mul_right _ hij)
  · intro i hi
    calc i * (imgs.length - 1) / (L - 1)
        ≤ (L - 1) * (imgs.length - 1) / (L - 1) :=
          Nat.div_le_div_right (Nat.mul_le_mul_right _ (by omega))
      _ = imgs.length - 1 := hcancel

/-- Witness for C9 with `N = 300` maps and `L = 180`. -/
theorem c9_witness :
    (2 ≤ 180 ∧ 180 < (List.replicate 300 (5 : ℕ)).length) ∧
      (assembleSeq 180 (0 : ℕ) (List.replicate 300 5)).1.length = 180 :=
  ⟨⟨by omega, by rw [List.length_replicate]; omega⟩,
    (c9_uniform_stride 0 (List.replicate 300 5) 180 (by omega)
      (by rw [List.length_replicate]; omega)).1⟩

/-! ## Claim C10 -/

/-- Claim C10: for any frame reaching target localization (`prt_num ≥
1`, 31 range rows, re-centered Doppler hint clamped into
`[0, prt_num - 1]`), the local search window is non-empty in both
dimensions, so the `abs_target.size == 0` skip branch is unreachable
under these preconditions. -/
theorem c10_window_nonempty (n raw : ℕ) (hn : 1 ≤ n) :
    rangeStartLocal < rangeEndLocal ∧
    dopplerStartOf (clipVr (recenterVr raw ((n : ℤ) / 2) - 1) 0 ((n : ℤ) - 1)) <
      dopplerEndOf n (clipVr (recenterVr raw ((n : ℤ) / 2) - 1) 0 ((n : ℤ) - 1)) ∧
    0 < windowSize n (clipVr (recenterVr raw ((n : ℤ) / 2) - 1) 0 ((n : ℤ) - 1)) := by
  set x := recenterVr raw ((n : ℤ) / 2) - 1 with hx
  have hn' : (1 : ℤ) ≤ (n : ℤ) := by exact_mod_cast hn
  have hlo : 0 ≤ clipVr x 0 ((n : ℤ) - 1) := le_max_left _ _
  have hhi : clipVr x 0 ((n : ℤ) - 1) ≤ (n : ℤ) - 1 :=
    max_le (by omega) (min_le_right _ _)
  have hrange : rangeStartLocal < rangeEndLocal := by
    unfold rangeStartLocal rangeEndLocal
    decide
  have hdopp : dopplerStartOf (clipVr x 0 ((n : ℤ) - 1)) <
      dopplerEndOf n (clipVr x 0 ((n : ℤ) - 1)) := by
    unfold dopplerStartOf dopplerEndOf
    omega
  refine ⟨hrange, hdopp, ?_⟩
  unfold windowSize
  have h1 : 0 < rangeEndLocal - rangeStartLocal := by omega
  have h2 : 0 < dopplerEndOf n (clipVr x 0 ((n : ℤ) - 1)) -
      dopplerStartOf (clipVr x 0 ((n : ℤ) - 1)) := by omega
  exact mul_pos h1 h2

/-- Witness for C10 at `prt_num = 200`, raw Doppler hint 150. -/
theorem c10_witness :
    1 ≤ 200 ∧ rangeStartLocal < rangeEndLocal :=
  ⟨by decide, (c10_window_nonempty 200 150 (by decide)).1⟩

/-! ## Claim C3 -/

theorem sliceStart_of_ge (vi ncols : ℕ) (h : 4 ≤ vi) :
    sliceStart vi ncols = (vi : ℤ) - 4 := by
  unfold sliceStart
  rw [if_neg (by omega)]

/-- Claim C3 (amended): the clutter notch locates the zero-velocity
column in the FULL (unmasked) velocity axis — for an even `prt_num`
axis with positive `delta_v` that index is `prt_num // 2` — and zeroes
exactly the 7-column slice `[c-4, c+3)` of the velocity-masked matrix,
leaving every other cell unchanged.  The band therefore coincides with
the band around the masked axis's own zero column only when the
`|v| < 56` mask drops no column to the left of zero. -/
theorem c3_band_zero_amended :
    (∀ (vi : ℕ) (m : List (List ℚ)), 4 ≤ vi →
      ∀ r j, r < m.length → j < (m.getD r []).length →
        ((bandZero vi m).getD r []).getD j 0 =
          if vi - 4 ≤ j ∧ j < vi + 3 then 0 else (m.getD r []).getD j 0) ∧
    (∀ (n : ℕ) (dv : ℚ), n % 2 = 0 → 2 ≤ n → 0 < dv →
      findZeroIdx (vAxis n dv) = some (n / 2)) := by
  constructor
  · intro vi m h4 r j hr hj
    unfold bandZero
    rw [getD_map_of_lt _ m r [] [] hr, getD_map_range _ 0 _ j hj,
      sliceStart_of_ge vi _ h4]
    exact if_congr (by omega) rfl rfl
  · intro n dv he h2 hdv
    have hgd : ∀ i, i < 2 * (n / 2) →
        (vAxis n dv).getD i 0 = ((i : ℚ) - (n / 2 : ℕ)) * dv := by
      intro i hi
      unfold vAxis
      exact getD_map_range _ 0 _ i hi
    refine findZeroIdx_eq_some _ (n / 2)
      (by unfold vAxis; rw [List.length_map, List.length_range]; omega) ?_ ?_
    · intro j hj
      rw [hgd j (by omega)]
      have hneg : ((j : ℚ) - (n / 2 : ℕ)) < 0 := by
        rw [sub_neg]
        exact_mod_cast hj
      exact ne_of_lt (mul_neg_of_neg_of_pos hneg hdv)
    · rw [hgd (n / 2) (by omega)]
      simp

/-- Claim C3 counterexample: with `prt_num = 12`, `prt = 1`,
`freq = 250000` (all passing validation, `delta_v = 50`), the masked
axis is `[-50, 0, 50]` with its zero column at masked index 1, but the
notch uses the full-axis index 6, zeroing only masked column 2 while
the masked zero-velocity column keeps its value 1. -/
theorem c3_counterexample :
    delta_v 12 1 250000 = 50 ∧
    (velocityMask (vAxis 12 50)).map (fun i => (vAxis 12 50).getD i 0) =
      [-50, 0, 50] ∧
    findZeroIdx (vAxis 12 50) = some 6 ∧
    ((bandZero 6 (absMatrix (maskColumns (vAxis 12 50)
        (List.replicate 31 (List.replicate 12 (1 : ℚ)))))).getD 0 []).getD 1 0
      = 1 := by
  have hax : vAxis 12 50 =
      [-300, -250, -200, -150, -100, -50, 0, 50, 100, 150, 200, 250] := by
    norm_num [vAxis, List.range_succ]
  refine ⟨by norm_num [delta_v], ?_, ?_, ?_⟩
  · rw [hax]; decide
  · rw [hax]; decide
  · rw [hax]; decide

/-- Witness for C3 on a 1-row matrix with 10 columns and notch index 6,
plus the zero-index fact at `prt_num = 12`, `delta_v = 50`. -/
theorem c3_witness :
    ((bandZero 6 [[(1 : ℚ), 1, 1, 1, 1, 1, 1, 1, 1, 1]]).getD 0 []).getD 5 0 = 0 ∧
    findZeroIdx (vAxis 12 50) = some 6 := by
  constructor
  · have h := c3_band_zero_amended.1 6 [[(1 : ℚ), 1, 1, 1, 1, 1, 1, 1, 1, 1]]
      (by omega) 0 5 (by decide) (by decide)
    rw [h]
    norm_num
  · exact c3_band_zero_amended.2 12 50 (by omega) (by omega) (by norm_num)

/-! ## Claim C4 -/

/-- Claim C4 (amended): when the velocity axis holds no exactly-zero
entry, the zero-column lookup of line 487 fails (IndexError), but the
frame-level `except Exception: continue` of lines 495-497 catches it:
the frame is silently dropped and the batch loop carries on with the
remaining frames; the failure is NOT fatal to the batch. -/
theorem c4_no_zero_frame_dropped (axis : List ℚ) (m : List (List ℚ))
    (rest : List (List ℚ × List (List ℚ))) (h : ∀ x ∈ axis, x ≠ 0) :
    buildRdMap axis m = none ∧
      processFrames ((axis, m) :: rest) = processFrames rest := by
  have hb : buildRdMap axis m = none := by
    unfold buildRdMap
    rw [findZeroIdx_eq_none axis h]
  refine ⟨hb, ?_⟩
  unfold processFrames
  rw [List.foldl_cons]
  simp only [hb]

/-- Claim C4 counterexample: a frame whose axis `[1, 2]` has no zero
entry makes `buildRdMap` fail, yet the batch loop simply skips it and
still produces the map of the following good frame. -/
theorem c4_counterexample :
    buildRdMap [(1 : ℚ), 2] [[3]] = none ∧
    buildRdMap [(0 : ℚ)] [[3]] = some [[0]] ∧
    processFrames [([(1 : ℚ), 2], [[3]]), ([0], [[3]])] = [[[0]]] := by
  decide

/-- Witness for C4 on the axis `[1, 2]` with no zero entry. -/
theorem c4_witness :
    (∀ x ∈ [(1 : ℚ), 2], x ≠ 0) ∧ buildRdMap [(1 : ℚ), 2] [[3]] = none :=
  ⟨by decide, (c4_no_zero_frame_dropped [(1 : ℚ), 2] [[3]] [] (by decide)).1⟩

/-! ## Byte/word access lemmas for the locator and the round trip -/

theorem getD_append_lt {α : Type} (l1 l2 : List α) (i : ℕ) (d : α)
    (h : i < l1.length) : (l1 ++ l2).getD i d = l1.getD i d := by
  rw [List.getD_eq_getElem?_getD, List.getD_eq_getElem?_getD,
    List.getElem?_append_left h]

theorem getD_append_ge {α : Type} (l1 l2 : List α) (i : ℕ) (d : α) :
    (l1 ++ l2).getD (l1.length + i) d = l2.getD i d := by
  rw [List.getD_eq_getElem?_getD, List.getD_eq_getElem?_getD,
    List.getElem?_append_right (by omega), Nat.add_sub_cancel_left]

theorem list_eq_of_getD (l1 l2 : List ℕ) (hlen : l1.length = l2.length)
    (h : ∀ i, i < l1.length → l1.getD i 0 = l2.getD i 0) : l1 = l2 := by
  apply List.ext_getElem hlen
  intro i h1 h2
  have hi := h i h1
  rwa [List.getD_eq_getElem?_getD, List.getD_eq_getElem?_getD,
    List.getElem?_eq_getElem h1, List.getElem?_eq_getElem h2] at hi

theorem byteAt_append_shift (l1 l2 : List ℕ) (p : ℕ) :
    byteAt (l1 ++ l2) (l1.length + p) = byteAt l2 p := by
  unfold byteAt
  exact getD_append_ge l1 l2 p 0

theorem u32Val_append_shift (l1 l2 : List ℕ) (p : ℕ) :
    u32Val (l1 ++ l2) (l1.length + p) = u32Val l2 p := by
  unfold u32Val
  rw [byteAt_append_shift]
  rw [show l1.length + p + 1 = l1.length + (p + 1) by omega, byteAt_append_shift]
  rw [show l1.length + p + 2 = l1.length + (p + 2) by omega, byteAt_append_shift]
  rw [show l1.length + p + 3 = l1.length + (p + 3) by omega, byteAt_append_shift]

theorem u32Val_encW_append (w : ℕ) (rest : List ℕ) (hw : w < 4294967296) :
    u32Val (encW w ++ rest) 0 = w := by
  unfold u32Val byteAt encW
  simp only [List.cons_append, List.getD_cons_zero, List.getD_cons_succ]
  omega

theorem flatten_map_encW_length (ws : List ℕ) :
    ((ws.map encW).flatten).length = 4 * ws.length := by
  induction ws with
  | nil => rfl
  | cons w rest ih =>
    simp only [List.map_cons, List.flatten_cons, List.length_append, ih,
      List.length_cons, encW, List.length_nil]
    omega

theorem u32Val_words (ws : List ℕ) (k : ℕ) (hk : k < ws.length)
    (hbound : ∀ w ∈ ws, w < 4294967296) :
    u32Val ((ws.map encW).flatten) (4 * k) = ws.getD k 0 := by
  induction ws generalizing k with
  | nil => simp at hk
  | cons w rest ih =>
    cases k with
    | zero =>
      simp only [List.map_cons, List.flatten_cons, Nat.mul_zero, List.getD_cons_zero]
      exact u32Val_encW_append w _ (hbound w (by simp))
    | succ k' =>
      have hsh : 4 * (k' + 1) = (encW w).length + 4 * k' := by
        simp [encW]
        omega
      rw [List.map_cons, List.flatten_cons, hsh, u32Val_append_shift,
        List.getD_cons_succ]
      exact ih k' (by simpa using hk) (fun x hx => hbound x (by simp [hx]))

/-! ## Claim C7 -/

theorem scanHeader_from (B : List ℕ) (o : ℕ) (hin : o + 4 ≤ B.length)
    (hmatch : u32Val B o = FRAME_HEAD) :
    ∀ k p, o - p = k → p ≤ o →
      (∀ j, p ≤ j → j < o → u32Val B j ≠ FRAME_HEAD) →
      scanHeader B p = some o := by
  intro k
  induction k with
  | zero =>
    intro p hk hp hb
    have hpo : p = o := by omega
    subst hpo
    unfold scanHeader
    rw [if_pos hin, if_pos hmatch]
  | succ k ih =>
    intro p hk hp hb
    have hpo : p < o := by omega
    unfold scanHeader
    rw [if_pos (by omega), if_neg (hb p le_rfl hpo), if_pos (by omega)]
    exact ih (p + 1) (by omega) (by omega) (fun j hj1 hj2 => hb j (by omega) hj2)

/-- A structurally valid frame at offset `o` (header sentinel, declared
length `fdl` in bounds, trailer sentinel at `o + fdl - 4`), preceded by
no byte position that reads as the header sentinel, is located exactly,
without entering the resynchronization loop. -/
theorem findFrame_of_valid (B : List ℕ) (o fdl : ℕ)
    (hbefore : ∀ j, j < o → u32Val B j ≠ FRAME_HEAD)
    (hhead : u32Val B o = FRAME_HEAD)
    (hlen : u32Val B (o + 4) * 4 = fdl)
    (h12 : 12 ≤ fdl) (hmax : fdl ≤ 1000000)
    (htrail : u32Val B (o + fdl - 4) = FRAME_END)
    (hfit : o + fdl ≤ B.length) :
    findFrame B = some (o, fdl, o + 4) := by
  have hscan : scanHeader B 0 = some o :=
    scanHeader_from B o (by omega) hhead o 0 (by omega) (by omega)
      (fun j hj1 hj2 => hbefore j hj2)
  have h1 : u32At B (o + 4) = some (u32Val B (o + 4)) := by
    rw [u32At, if_pos (by omega)]
  have hoff : o + 8 + fdl - 12 = o + fdl - 4 := by omega
  have h2 : u32At B (o + fdl - 4) = some (u32Val B (o + fdl - 4)) := by
    rw [u32At, if_pos (by omega)]
  unfold findFrame
  rw [hscan]
  simp only [h1, hlen, hoff, h2, htrail]
  rw [if_neg (show ¬(fdl = 0 ∨ 1000000 < fdl) by omega)]
  simp

/-- Claim C7: a byte buffer holding a structurally valid frame — header
sentinel at `o`, declared byte length `fdl` in `(0, 1e6]`, trailer
sentinel at the declared offset `o + fdl - 4` — with no earlier byte
position reading as the header sentinel, is located with exactly that
header offset and declared length; the scan advances by single bytes
(read 4, step back 3 on mismatch), and a position reading as the
trailer sentinel can never be accepted as a header, the two sentinels
being distinct words. -/
theorem c7_frame_locator (B : List ℕ) (o fdl : ℕ)
    (hbefore : ∀ j, j < o → u32Val B j ≠ FRAME_HEAD)
    (hhead : u32Val B o = FRAME_HEAD)
    (hlen : u32Val B (o + 4) * 4 = fdl)
    (h12 : 12 ≤ fdl) (hmax : fdl ≤ 1000000)
    (htrail : u32Val B (o + fdl - 4) = FRAME_END)
    (hfit : o + fdl ≤ B.length) :
    findFrame B = some (o, fdl, o + 4) ∧
      (∀ j, u32Val B j = FRAME_END → u32Val B j ≠ FRAME_HEAD) := by
  refine ⟨findFrame_of_valid B o fdl hbefore hhead hlen h12 hmax htrail hfit, ?_⟩
  intro j hj
  rw [hj]
  decide

/-- Witness for C7: one garbage byte, then a minimal valid frame
(declared word count 3, i.e. 12 bytes). -/
theorem c7_witness :
    (12 : ℕ) ≤ 12 ∧
      findFrame ([0] ++ (encW FRAME_HEAD ++ (encW 3 ++ encW FRAME_END))) =
        some (1, 12, 5) :=
  ⟨by omega,
    (c7_frame_locator ([0] ++ (encW FRAME_HEAD ++ (encW 3 ++ encW FRAME_END)))
      1 12 (by decide) (by decide) (by decide) (by decide) (by decide)
      (by decide) (by decide)).1⟩

/-! ## Claim C6: word-level layout lemmas -/

theorem rowWords_length (row : List (ℕ × ℕ)) :
    ((row.map pairWords).flatten).length = 2 * row.length := by
  induction row with
  | nil => rfl
  | cons z rest ih =>
    simp only [List.map_cons, List.flatten_cons, List.length_append, ih,
      pairWords, List.length_cons, List.length_nil]
    omega

theorem pairWords_getD (row : List (ℕ × ℕ)) (c : ℕ) (hc : c < row.length) :
    ((row.map pairWords).flatten).getD (2 * c) 0 = (row.getD c (0, 0)).1 ∧
    ((row.map pairWords).flatten).getD (2 * c + 1) 0 = (row.getD c (0, 0)).2 := by
  induction row generalizing c with
  | nil => simp at hc
  | cons z rest ih =>
    cases c with
    | zero =>
      simp [pairWords]
    | succ c' =>
      have h2 : 2 * (c' + 1) = 2 + 2 * c' := by omega
      have h3 : 2 * (c' + 1) + 1 = 2 + (2 * c' + 1) := by omega
      have hc' : c' < rest.length := by simpa using hc
      constructor
      · rw [List.map_cons, List.flatten_cons, h2,
          show (2 : ℕ) + 2 * c' = (pairWords z).length + 2 * c' from rfl,
          getD_append_ge, List.getD_cons_succ]
        exact (ih c' hc').1
      · rw [List.map_cons, List.flatten_cons, h3,
          show (2 : ℕ) + (2 * c' + 1) = (pairWords z).length + (2 * c' + 1) from rfl,
          getD_append_ge, List.getD_cons_succ]
        exact (ih c' hc').2

theorem iqWords_length (iq : List (List (ℕ × ℕ))) (n : ℕ)
    (hcols : ∀ row ∈ iq, row.length = n) :
    (iqWords iq).length = 2 * n * iq.length := by
  induction iq with
  | nil => rfl
  | cons row rest ih =>
    have hr : row.length = n := hcols row (by simp)
    have ih' := ih (fun r hrr => hcols r (by simp [hrr]))
    simp only [iqWords, List.map_cons, List.flatten_cons, List.length_append,
      rowWords_length, hr, List.length_cons]
    rw [show ((rest.map (fun r => (r.map pairWords).flatten)).flatten).length =
      2 * n * rest.length from ih']
    ring

theorem iqWords_getD (iq : List (List (ℕ × ℕ))) (n r c : ℕ)
    (hcols : ∀ row ∈ iq, row.length = n) (hr : r < iq.length) (hc : c < n) :
    (iqWords iq).getD (2 * (r * n + c)) 0 = ((iq.getD r []).getD c (0, 0)).1 ∧
    (iqWords iq).getD (2 * (r * n + c) + 1) 0 = ((iq.getD r []).getD c (0, 0)).2 := by
  induction iq generalizing r with
  | nil => simp at hr
  | cons row rest ih =>
    have hrown : row.length = n := hcols row (by simp)
    cases r with
    | zero =>
      simp only [Nat.zero_mul, Nat.zero_add, List.getD_cons_zero]
      have hlt1 : 2 * c < ((row.map pairWords).flatten).length := by
        rw [rowWords_length, hrown]; omega
      have hlt2 : 2 * c + 1 < ((row.map pairWords).flatten).length := by
        rw [rowWords_length, hrown]; omega
      constructor
      · rw [show iqWords (row :: rest) =
          (row.map pairWords).flatten ++ iqWords rest from rfl]
        rw [getD_append_lt _ _ _ _ hlt1]
        exact (pairWords_getD row c (by omega)).1
      · rw [show iqWords (row :: rest) =
          (row.map pairWords).flatten ++ iqWords rest from rfl]
        rw [getD_append_lt _ _ _ _ hlt2]
        exact (pairWords_getD row c (by omega)).2
    | succ r' =>
      have hsplit : 2 * ((r' + 1) * n + c) =
          ((row.map pairWords).flatten).length + 2 * (r' * n + c) := by
        rw [rowWords_length, hrown]
        ring
      have hsplit1 : 2 * ((r' + 1) * n + c) + 1 =
          ((row.map pairWords).flatten).length + (2 * (r' * n + c) + 1) := by
        rw [rowWords_length, hrown]
        ring
      have hcols' : ∀ rr ∈ rest, rr.length = n :=
        fun rr hrr => hcols rr (by simp [hrr])
      constructor
      · rw [show iqWords (row :: rest) =
          (row.map pairWords).flatten ++ iqWords rest from rfl]
        rw [hsplit, getD_append_ge, List.getD_cons_succ]
        exact (ih r' hcols' (by simpa using hr)).1
      · rw [show iqWords (row :: rest) =
          (row.map pairWords).flatten ++ iqWords rest from rfl]
        rw [hsplit1, getD_append_ge, List.getD_cons_succ]
        exact (ih r' hcols' (by simpa using hr)).2

theorem getD_append_len {α : Type} (l1 l2 : List α) (d : α) :
    (l1 ++ l2).getD l1.length d = l2.getD 0 d := by
  have h := getD_append_ge l1 l2 0 d
  simpa using h

theorem getD_cons4 {α : Type} (a b c d : α) (l : List α) (i : ℕ) (dd : α) :
    (a :: b :: c :: d :: l).getD (4 + i) dd = l.getD i dd := by
  rw [show (4 : ℕ) + i = i + 1 + 1 + 1 + 1 by omega]
  simp [List.getD_cons_succ]

theorem frameWords_eq_cons (rp : RawParams) (iq : List (List (ℕ × ℕ))) :
    frameWords rp iq = FRAME_HEAD ::
      (10 + rp.track_no_info.length + 62 * rp.prt_num) ::
      rp.e_scan_az_raw :: (rp.track_no_info.length / 4) ::
      (rp.track_no_info ++
        ([rp.freq_raw, rp.cpi_count, rp.prt_num, rp.prt_raw, rp.data_length] ++
          (iqWords iq ++ [FRAME_END]))) := rfl

theorem frameWords_length (rp : RawParams) (iq : List (List (ℕ × ℕ)))
    (hrows : iq.length = 31) (hcols : ∀ row ∈ iq, row.length = rp.prt_num) :
    (frameWords rp iq).length = 10 + rp.track_no_info.length + 62 * rp.prt_num := by
  rw [frameWords_eq_cons]
  simp only [List.length_cons, List.length_append, List.length_singleton,
    List.length_cons, List.length_nil]
  rw [iqWords_length iq rp.prt_num hcols, hrows]
  ring

theorem frameWords_getD_track (rp : RawParams) (iq : List (List (ℕ × ℕ)))
    (i : ℕ) (hi : i < rp.track_no_info.length) :
    (frameWords rp iq).getD (4 + i) 0 = rp.track_no_info.getD i 0 := by
  rw [frameWords_eq_cons, getD_cons4, getD_append_lt _ _ _ _ hi]

theorem frameWords_getD_param (rp : RawParams) (iq : List (List (ℕ × ℕ)))
    (j : ℕ) (hj : j < 5) :
    (frameWords rp iq).getD (4 + rp.track_no_info.length + j) 0 =
      [rp.freq_raw, rp.cpi_count, rp.prt_num, rp.prt_raw, rp.data_length].getD j 0 := by
  rw [frameWords_eq_cons, show 4 + rp.track_no_info.length + j =
    4 + (rp.track_no_info.length + j) by omega, getD_cons4, getD_append_ge,
    getD_append_lt _ _ _ _ (by simp; omega)]

theorem frameWords_getD_iq (rp : RawParams) (iq : List (List (ℕ × ℕ)))
    (hcols : ∀ row ∈ iq, row.length = rp.prt_num)
    (j : ℕ) (hj : j < 2 * rp.prt_num * iq.length) :
    (frameWords rp iq).getD (9 + rp.track_no_info.length + j) 0 =
      (iqWords iq).getD j 0 := by
  rw [frameWords_eq_cons, show 9 + rp.track_no_info.length + j =
    4 + (rp.track_no_info.length + (5 + j)) by omega, getD_cons4, getD_append_ge]
  rw [show (5 : ℕ) + j =
    ([rp.freq_raw, rp.cpi_count, rp.prt_num, rp.prt_raw, rp.data_length] : List ℕ).length + j
    from rfl, getD_append_ge]
  rw [getD_append_lt _ _ _ _ (by rwa [iqWords_length iq rp.prt_num hcols])]

theorem frameWords_getD_last (rp : RawParams) (iq : List (List (ℕ × ℕ)))
    (hrows : iq.length = 31) (hcols : ∀ row ∈ iq, row.length = rp.prt_num) :
    (frameWords rp iq).getD (9 + rp.track_no_info.length + 62 * rp.prt_num) 0 =
      FRAME_END := by
  rw [frameWords_eq_cons, show 9 + rp.track_no_info.length + 62 * rp.prt_num =
    4 + (rp.track_no_info.length + (5 + 62 * rp.prt_num)) by omega, getD_cons4,
    getD_append_ge]
  rw [show (5 : ℕ) + 62 * rp.prt_num =
    ([rp.freq_raw, rp.cpi_count, rp.prt_num, rp.prt_raw, rp.data_length] : List ℕ).length +
      62 * rp.prt_num from rfl, getD_append_ge]
  rw [show 62 * rp.prt_num = (iqWords iq).length from by
    rw [iqWords_length iq rp.prt_num hcols, hrows]; ring, getD_append_len]
  rfl

theorem frameWords_bound (rp : RawParams) (iq : List (List (ℕ × ℕ))) (tc : ℕ)
    (htc : rp.track_no_info.length = 4 * tc) (htcb : tc ≤ 1000)
    (hts : ∀ w ∈ rp.track_no_info, w < 4294967296)
    (haz : rp.e_scan_az_raw < 4294967296)
    (hcpi : rp.cpi_count < 4294967296)
    (hdl : rp.data_length < 4294967296)
    (hn2 : rp.prt_num ≤ 10000) (hp2 : rp.prt_raw ≤ 80000000)
    (hf2 : rp.freq_raw ≤ 1000000)
    (hiqb : ∀ row ∈ iq, ∀ z ∈ row, z.1 < 4294967296 ∧ z.2 < 4294967296) :
    ∀ w ∈ frameWords rp iq, w < 4294967296 := by
  intro w hw
  rw [frameWords_eq_cons] at hw
  simp only [List.mem_cons, List.mem_append, List.mem_singleton, List.not_mem_nil,
    or_false] at hw
  rcases hw with h | h | h | h | h | (h | h | h | h | h) | h | h
  · subst h; decide
  · omega
  · omega
  · omega
  · exact hts w h
  · omega
  · omega
  · omega
  · omega
  · omega
  · simp only [iqWords, List.mem_flatten, List.mem_map] at h
    obtain ⟨_, ⟨row, hrow, rfl⟩, hw2⟩ := h
    simp only [List.mem_flatten, List.mem_map] at hw2
    obtain ⟨_, ⟨z, hz, rfl⟩, hw3⟩ := hw2
    have hb := hiqb row hrow z hz
    simp only [pairWords, List.mem_cons, List.not_mem_nil, or_false] at hw3
    rcases hw3 with h | h <;> subst h <;> omega
  · subst h; decide

theorem decodeFrame_encodeFrame (rp : RawParams) (iq : List (List (ℕ × ℕ))) (tc : ℕ)
    (htc : rp.track_no_info.length = 4 * tc) (htcb : tc ≤ 1000)
    (hts : ∀ w ∈ rp.track_no_info, w < 4294967296)
    (haz : rp.e_scan_az_raw < 4294967296)
    (hcpi : rp.cpi_count < 4294967296)
    (hdl : rp.data_length < 4294967296)
    (hn1 : 1 ≤ rp.prt_num) (hn2 : rp.prt_num ≤ 10000)
    (hp1 : 1 ≤ rp.prt_raw) (hp2 : rp.prt_raw ≤ 80000000)
    (hf1 : 1 ≤ rp.freq_raw) (hf2 : rp.freq_raw ≤ 1000000)
    (hrows : iq.length = 31)
    (hcols : ∀ row ∈ iq, row.length = rp.prt_num)
    (hiqb : ∀ row ∈ iq, ∀ z ∈ row, z.1 < 4294967296 ∧ z.2 < 4294967296) :
    decodeFrame (encodeFrame rp iq) 4 = some (paramsOfRaw rp, iq) := by
  have hWlen := frameWords_length rp iq hrows hcols
  have hBlen : (encodeFrame rp iq).length =
      4 * (10 + rp.track_no_info.length + 62 * rp.prt_num) := by
    unfold encodeFrame
    rw [flatten_map_encW_length, hWlen]
  have hbw := frameWords_bound rp iq tc htc htcb hts haz hcpi hdl hn2 hp2 hf2 hiqb
  have hval : ∀ k, k < 10 + rp.track_no_info.length + 62 * rp.prt_num →
      u32Val (encodeFrame rp iq) (4 * k) = (frameWords rp iq).getD k 0 := by
    intro k hk
    exact u32Val_words _ k (by rw [hWlen]; exact hk) hbw
  unfold decodeFrame
  rw [if_neg (by omega)]
  simp only []
  have hcnt : u32Val (encodeFrame rp iq) (4 + 8) = tc := by
    have h := hval 3 (by omega)
    rw [show (4 : ℕ) * 3 = 4 + 8 from rfl] at h
    rw [h, frameWords_eq_cons]
    show rp.track_no_info.length / 4 = tc
    omega
  rw [hcnt]
  rw [if_neg (by omega)]
  rw [if_neg (by omega)]
  have haz2 : u32Val (encodeFrame rp iq) (4 + 4) = rp.e_scan_az_raw := by
    have h := hval 2 (by omega)
    rw [show (4 : ℕ) * 2 = 4 + 4 from rfl] at h
    exact h
  have hfreq : u32Val (encodeFrame rp iq) (4 + 12 + 16 * tc) = rp.freq_raw := by
    have h := hval (4 + rp.track_no_info.length + 0) (by omega)
    rw [frameWords_getD_param rp iq 0 (by omega), htc] at h
    rw [show (4 : ℕ) * (4 + 4 * tc + 0) = 4 + 12 + 16 * tc by ring] at h
    exact h
  have hcpi2 : u32Val (encodeFrame rp iq) (4 + 12 + 16 * tc + 4) = rp.cpi_count := by
    have h := hval (4 + rp.track_no_info.length + 1) (by omega)
    rw [frameWords_getD_param rp iq 1 (by omega), htc] at h
    rw [show (4 : ℕ) * (4 + 4 * tc + 1) = 4 + 12 + 16 * tc + 4 by ring] at h
    exact h
  have hnum : u32Val (encodeFrame rp iq) (4 + 12 + 16 * tc + 8) = rp.prt_num := by
    have h := hval (4 + rp.track_no_info.length + 2) (by omega)
    rw [frameWords_getD_param rp iq 2 (by omega), htc] at h
    rw [show (4 : ℕ) * (4 + 4 * tc + 2) = 4 + 12 + 16 * tc + 8 by ring] at h
    exact h
  have hpr : u32Val (encodeFrame rp iq) (4 + 12 + 16 * tc + 12) = rp.prt_raw := by
    have h := hval (4 + rp.track_no_info.length + 3) (by omega)
    rw [frameWords_getD_param rp iq 3 (by omega), htc] at h
    rw [show (4 : ℕ) * (4 + 4 * tc + 3) = 4 + 12 + 16 * tc + 12 by ring] at h
    exact h
  have hdl2 : u32Val (encodeFrame rp iq) (4 + 12 + 16 * tc + 16) = rp.data_length := by
    have h := hval (4 + rp.track_no_info.length + 4) (by omega)
    rw [frameWords_getD_param rp iq 4 (by omega), htc] at h
    rw [show (4 : ℕ) * (4 + 4 * tc + 4) = 4 + 12 + 16 * tc + 16 by ring] at h
    exact h
  rw [hnum, hpr, hfreq, hcpi2, hdl2, haz2]
  rw [if_neg (by omega)]
  rw [if_neg (show ¬((rp.prt_raw : ℚ) * (125 / 10000000000) ≤ 0 ∨
      1 < (rp.prt_raw : ℚ) * (125 / 10000000000)) by
    push_neg
    have h1 : (1 : ℚ) ≤ (rp.prt_raw : ℚ) := by exact_mod_cast hp1
    have h2 : (rp.prt_raw : ℚ) ≤ 80000000 := by exact_mod_cast hp2
    constructor
    · nlinarith
    · nlinarith)]
  rw [if_neg (show ¬((rp.freq_raw : ℚ) * 1000000 ≤ 0 ∨
      (1000000000000 : ℚ) < (rp.freq_raw : ℚ) * 1000000) by
    push_neg
    have h1 : (1 : ℚ) ≤ (rp.freq_raw : ℚ) := by exact_mod_cast hf1
    have h2 : (rp.freq_raw : ℚ) ≤ 1000000 := by exact_mod_cast hf2
    constructor
    · nlinarith
    · nlinarith)]
  rw [if_neg (by omega)]
  have htrackeq : readWordsAt (encodeFrame rp iq) (4 + 12) (tc * 4) =
      rp.track_no_info := by
    apply list_eq_of_getD
    · simp only [readWordsAt, List.length_map, List.length_range, htc]
      ring
    · intro i hi
      have hi' : i < tc * 4 := by
        simpa only [readWordsAt, List.length_map, List.length_range] using hi
      rw [readWordsAt, getD_map_range _ 0 _ i hi']
      have h := hval (4 + i) (by omega)
      rw [frameWords_getD_track rp iq i (by omega)] at h
      rw [show (4 : ℕ) * (4 + i) = 4 + 12 + 4 * i by ring] at h
      exact h
  have hiqeq : (List.range 31).map (fun r => (List.range rp.prt_num).map (fun c =>
      (u32Val (encodeFrame rp iq) (4 + 12 + 16 * tc + 20 + 8 * (r * rp.prt_num + c)),
        u32Val (encodeFrame rp iq)
          (4 + 12 + 16 * tc + 20 + 8 * (r * rp.prt_num + c) + 4)))) = iq := by
    apply List.ext_getElem
    · simp [hrows]
    intro r h1 h2
    have hrlt : r < iq.length := h2
    have hr31 : r < 31 := by omega
    simp only [List.getElem_map, List.getElem_range]
    apply List.ext_getElem
    · simp only [List.length_map, List.length_range]
      exact (hcols iq[r] (List.getElem_mem h2)).symm
    intro c hc1 hc2
    have hclt : c < rp.prt_num := by
      simpa only [List.length_map, List.length_range] using hc1
    simp only [List.getElem_map, List.getElem_range]
    have haux : r * rp.prt_num + c < 31 * rp.prt_num := by
      have h30 : r * rp.prt_num ≤ 30 * rp.prt_num :=
        Nat.mul_le_mul_right rp.prt_num (by omega)
      omega
    have hgr : iq.getD r [] = iq[r] := by
      rw [List.getD_eq_getElem?_getD, List.getElem?_eq_getElem hrlt]
      rfl
    have hgc : iq[r].getD c (0, 0) = iq[r][c] := by
      rw [List.getD_eq_getElem?_getD, List.getElem?_eq_getElem hc2]
      rfl
    have hiq1 := (iqWords_getD iq rp.prt_num r c hcols hrlt hclt).1
    have hiq2 := (iqWords_getD iq rp.prt_num r c hcols hrlt hclt).2
    have hjlt : 2 * (r * rp.prt_num + c) + 1 < 2 * rp.prt_num * iq.length := by
      rw [hrows]
      omega
    have hw1 := hval (9 + rp.track_no_info.length + 2 * (r * rp.prt_num + c))
      (by rw [htc]; omega)
    rw [frameWords_getD_iq rp iq hcols _ (by omega), hiq1, hgr, hgc] at hw1
    rw [show (4 : ℕ) * (9 + rp.track_no_info.length + 2 * (r * rp.prt_num + c)) =
      4 + 12 + 16 * tc + 20 + 8 * (r * rp.prt_num + c) by rw [htc]; ring] at hw1
    have hw2 := hval (9 + rp.track_no_info.length + (2 * (r * rp.prt_num + c) + 1))
      (by rw [htc]; omega)
    rw [frameWords_getD_iq rp iq hcols _ (by omega), hiq2, hgr, hgc] at hw2
    rw [show (4 : ℕ) * (9 + rp.track_no_info.length + (2 * (r * rp.prt_num + c) + 1)) =
      4 + 12 + 16 * tc + 20 + 8 * (r * rp.prt_num + c) + 4 by rw [htc]; ring] at hw2
    rw [Prod.ext_iff]
    exact ⟨hw1, hw2⟩
  rw [htrackeq, hiqeq]
  rfl

theorem readRawData_eq (B : List ℕ) : readRawData B =
    match findFrame B with
    | none => none
    | some (_, _, d) => decodeFrame B d := rfl

/-- Claim C6: decoding a byte stream produced by the symmetric test
encoder (fields little-endian in decoding order, IQ interleaved
real/imag) recovers exactly the original parameter record (with the
documented scalings applied) and the original 31-row IQ matrix, for
every raw record and matrix within the documented bounds. -/
theorem c6_roundtrip (rp : RawParams) (iq : List (List (ℕ × ℕ))) (tc : ℕ)
    (htc : rp.track_no_info.length = 4 * tc) (htcb : tc ≤ 1000)
    (hts : ∀ w ∈ rp.track_no_info, w < 4294967296)
    (haz : rp.e_scan_az_raw < 4294967296)
    (hcpi : rp.cpi_count < 4294967296)
    (hdl : rp.data_length < 4294967296)
    (hn1 : 1 ≤ rp.prt_num) (hn2 : rp.prt_num ≤ 10000)
    (hp1 : 1 ≤ rp.prt_raw) (hp2 : rp.prt_raw ≤ 80000000)
    (hf1 : 1 ≤ rp.freq_raw) (hf2 : rp.freq_raw ≤ 1000000)
    (hrows : iq.length = 31)
    (hcols : ∀ row ∈ iq, row.length = rp.prt_num)
    (hiqb : ∀ row ∈ iq, ∀ z ∈ row, z.1 < 4294967296 ∧ z.2 < 4294967296)
    (hsize : 4 * (10 + rp.track_no_info.length + 62 * rp.prt_num) ≤ 1000000) :
    readRawData (encodeFrame rp iq) = some (paramsOfRaw rp, iq) := by
  have hWlen := frameWords_length rp iq hrows hcols
  have hBlen : (encodeFrame rp iq).length =
      4 * (10 + rp.track_no_info.length + 62 * rp.prt_num) := by
    unfold encodeFrame
    rw [flatten_map_encW_length, hWlen]
  have hbw := frameWords_bound rp iq tc htc htcb hts haz hcpi hdl hn2 hp2 hf2 hiqb
  have hval : ∀ k, k < 10 + rp.track_no_info.length + 62 * rp.prt_num →
      u32Val (encodeFrame rp iq) (4 * k) = (frameWords rp iq).getD k 0 := by
    intro k hk
    exact u32Val_words _ k (by rw [hWlen]; exact hk) hbw
  have hfind : findFrame (encodeFrame rp iq) =
      some (0, 4 * (10 + rp.track_no_info.length + 62 * rp.prt_num), 0 + 4) := by
    apply findFrame_of_valid
    · intro j hj
      exact absurd hj (Nat.not_lt_zero j)
    · have h := hval 0 (by omega)
      rw [show (4 : ℕ) * 0 = 0 from rfl] at h
      rw [h, frameWords_eq_cons]
      rfl
    · have h := hval 1 (by omega)
      rw [show (4 : ℕ) * 1 = 0 + 4 from rfl] at h
      rw [h, frameWords_eq_cons]
      show (10 + rp.track_no_info.length + 62 * rp.prt_num) * 4 =
        4 * (10 + rp.track_no_info.length + 62 * rp.prt_num)
      ring
    · omega
    · exact hsize
    · have h := hval (9 + rp.track_no_info.length + 62 * rp.prt_num) (by omega)
      rw [frameWords_getD_last rp iq hrows hcols] at h
      rw [show 0 + 4 * (10 + rp.track_no_info.length + 62 * rp.prt_num) - 4 =
        4 * (9 + rp.track_no_info.length + 62 * rp.prt_num) by omega]
      exact h
    · omega
  have hfind4 : findFrame (encodeFrame rp iq) =
      some (0, 4 * (10 + rp.track_no_info.length + 62 * rp.prt_num), 4) := by
    rw [hfind]
  have hdec := decodeFrame_encodeFrame rp iq tc htc htcb hts haz hcpi hdl hn1 hn2
    hp1 hp2 hf1 hf2 hrows hcols hiqb
  rw [readRawData_eq, hfind4]
  exact hdec

/-- Witness for C6: a frame with one track hint, `prt_num = 1`,
`prt_raw = 8e7` (so `prt = 1`), and a 31-row one-column IQ matrix. -/
theorem c6_witness :
    (RawParams.mk 7 [1, 2, 3, 4] 1000 9 1 80000000 31).track_no_info.length = 4 * 1 ∧
      readRawData (encodeFrame (RawParams.mk 7 [1, 2, 3, 4] 1000 9 1 80000000 31)
          (List.replicate 31 [(5, 6)])) =
        some (paramsOfRaw (RawParams.mk 7 [1, 2, 3, 4] 1000 9 1 80000000 31),
          List.replicate 31 [(5, 6)]) :=
  ⟨by decide,
    c6_roundtrip (RawParams.mk 7 [1, 2, 3, 4] 1000 9 1 80000000 31)
      (List.replicate 31 [(5, 6)]) 1 (by decide) (by decide) (by decide)
      (by decide) (by decide) (by decide) (by decide) (by decide) (by decide)
      (by decide) (by decide) (by decide) (by decide) (by decide) (by decide)
      (by decide)⟩
